import Mathlib

/-!
Verification of the voice-assistant session orchestrator.

This file gives a shallow embedding of the server-side pipeline of the
voice-assistant repository and proves properties of it:

* `DeepgramStream` and its event handlers embed the streaming transcription
  adapter (`src/server/stt/deepgram-provider.ts`): transcript accumulation,
  the `finish()` promise with its utterance-end / close / 2-second-fallback
  resolution paths.
* `SessionState`, `finishRecording`, `handleCancel`, `maxDurationFire` embed
  the per-connection session handler (`src/server/ws/session-handler.ts`).
  Awaited provider calls (STT finish, LLM, TTS) are abstracted by an
  `Oracle` giving their outcomes; each embedded routine returns the exact
  list of messages it sends to the client and the pipeline calls it makes.
* `regGet`/`regSet`/`regErase`, `admitConnection`, `releaseConnection` embed
  the per-IP connection registry of `src/server/index.ts` as an association
  list mirroring the `Map<string, number>`.
-/

/-- Model of JavaScript's `String.prototype.trim`: drop whitespace from both
ends.  (Lean's built-in `String.trim` is positional and does not reduce in
the kernel, so we use an explicit character-list version.) -/
def jsTrim (s : String) : String :=
  String.mk (((s.data.dropWhile Char.isWhitespace).reverse.dropWhile
    Char.isWhitespace).reverse)

/-- `AppStatus` from `src/shared/types.ts`: the status values sent in
`status` messages. -/
inductive AppStatus
  | idle
  | listening
  | processing_stt
  | processing_llm
  | processing_tts
  | ready_to_play
deriving DecidableEq, Repr

/-- `LLMResponse` from `src/shared/types.ts`: summary, up to 3 bullets,
next action. -/
structure LLMResponse where
  summary : String
  bullets : List String
  next_action : String
deriving DecidableEq, Repr

/-- `ServerMessage` from `src/shared/types.ts`: the tagged union of
messages the server sends to the client. -/
inductive ServerMessage
  | partialTranscript (text : String) (isFinal : Bool)
  | finalTranscript (text : String)
  | llmResponse (data : LLMResponse)
  | ttsAudio (audioBase64 : String) (mimeType : String)
  | errorMsg (message : String) (code : String)
  | statusMsg (status : AppStatus)
deriving DecidableEq, Repr

/-- Error code `STT_ERROR` from the `ErrorCodes` table in
`src/shared/types.ts`. -/
def ErrorCodes.STT_ERROR : String := "STT_ERROR"

/-- Error code `LLM_ERROR`. -/
def ErrorCodes.LLM_ERROR : String := "LLM_ERROR"

/-- Error code `TTS_ERROR`. -/
def ErrorCodes.TTS_ERROR : String := "TTS_ERROR"

/-- Error code `MAX_DURATION`. -/
def ErrorCodes.MAX_DURATION : String := "MAX_DURATION"

/-- Error code `INVALID_INPUT`. -/
def ErrorCodes.INVALID_INPUT : String := "INVALID_INPUT"

/-- Error code `CONNECTION_ERROR`. -/
def ErrorCodes.CONNECTION_ERROR : String := "CONNECTION_ERROR"

/-- Whether `hay` starts with `needle` (character lists). -/
def startsWithL : List Char → List Char → Bool
  | _, [] => true
  | [], _ :: _ => false
  | h :: hs, n :: ns => h = n && startsWithL hs ns

/-- Whether `needle` occurs as a contiguous substring of `hay`
(character lists). -/
def containsL : List Char → List Char → Bool
  | [], needle => needle.isEmpty
  | h :: hs, needle => startsWithL (h :: hs) needle || containsL hs needle

/-- Model of JavaScript's `String.prototype.includes`. -/
def strIncludes (hay needle : String) : Bool :=
  containsL hay.data needle.data

/-- The catch-block classification in `finishRecording`
(`session-handler.ts` lines 190-204): substring matching on the error
message selects the error code and the generic user-facing message.
Returns `(errorCode, errorMessage)`. -/
def classifyError (m : String) : String × String :=
  if strIncludes m "STT" || strIncludes m "Deepgram" then
    (ErrorCodes.STT_ERROR, "Speech recognition failed")
  else if strIncludes m "LLM" || strIncludes m "OpenAI" then
    (ErrorCodes.LLM_ERROR, "AI response generation failed")
  else if strIncludes m "TTS" then
    (ErrorCodes.TTS_ERROR, "Text-to-speech failed")
  else
    (ErrorCodes.CONNECTION_ERROR, "An error occurred while processing")

/-- `formatForTTS` from `session-handler.ts` line 211: returns the
response's summary. -/
def formatForTTS (response : LLMResponse) : String :=
  response.summary

/-- The mutable state of a `DeepgramStream`
(`deepgram-provider.ts`): the accumulated transcript `fullTranscript`,
whether a `finish()` promise is pending (`resolveFinish !== null`), the
value a resolved `finish()` promise carries (`none` while unresolved),
and the `isOpen` flag. -/
structure DeepgramStream where
  fullTranscript : String
  pendingFinish : Bool
  resolvedWith : Option String
  isOpen : Bool
deriving DecidableEq, Repr

/-- Events delivered to a `DeepgramStream`: a provider transcript segment,
the provider's utterance-end signal, connection close, the 2-second
fallback timer of `finish()` firing, and connection open. -/
inductive DGEvent
  | transcript (text : String) (isFinal : Bool)
  | utteranceEnd
  | closeEvt
  | timeoutFire
  | openEvt
deriving DecidableEq, Repr

/-- The accumulation step from the `Transcript` handler
(`deepgram-provider.ts` line 56):
`fullTranscript += (fullTranscript ? ' ' : '') + transcript`. -/
def joinSeg (acc t : String) : String :=
  acc ++ (if acc = "" then "" else " ") ++ t

/-- `resolveFinish` invocation guard: if a `finish()` promise is pending,
resolve it with the current accumulated transcript. -/
def resolveIfPending (s : DeepgramStream) : DeepgramStream :=
  if s.pendingFinish then
    { s with pendingFinish := false, resolvedWith := some s.fullTranscript }
  else s

/-- The `Transcript` event handler (`deepgram-provider.ts` lines 51-63):
empty text is ignored; final segments are appended to the accumulated
transcript; partial segments are only surfaced, never persisted. -/
def handleTranscript (s : DeepgramStream) (text : String) (isFinal : Bool) :
    DeepgramStream :=
  if text = "" then s
  else if isFinal then { s with fullTranscript := joinSeg s.fullTranscript text }
  else s

/-- One event step of a `DeepgramStream`, from the handlers registered in
`initConnection` plus the fallback timer of `finish()`. -/
def stepEvent (s : DeepgramStream) : DGEvent → DeepgramStream
  | DGEvent.transcript t f => handleTranscript s t f
  | DGEvent.utteranceEnd => resolveIfPending s
  | DGEvent.closeEvt => resolveIfPending { s with isOpen := false }
  | DGEvent.timeoutFire => resolveIfPending s
  | DGEvent.openEvt => { s with isOpen := true }

/-- Process a list of events in order. -/
def runEvents (s : DeepgramStream) : List DGEvent → DeepgramStream
  | [] => s
  | e :: es => runEvents (stepEvent s e) es

/-- The synchronous part of `finish()` (`deepgram-provider.ts` lines
95-111): if the accumulated transcript is non-empty, resolve immediately
with it; otherwise register the resolver (the 2-second fallback timer is
scheduled, modelled by a later `timeoutFire` event). -/
def finishStep (s : DeepgramStream) : DeepgramStream :=
  if s.fullTranscript ≠ "" then { s with resolvedWith := some s.fullTranscript }
  else { s with pendingFinish := true }

/-- The initial state of a freshly constructed `DeepgramStream`. -/
def initialStream : DeepgramStream :=
  { fullTranscript := "", pendingFinish := false, resolvedWith := none,
    isOpen := false }

/-- Run a sequence of provider transcript segments `(text, isFinal)` on a
fresh stream. -/
def streamOfSegs (segs : List (String × Bool)) : DeepgramStream :=
  runEvents initialStream (segs.map fun p => DGEvent.transcript p.1 p.2)

/-- The non-empty final segments of a segment sequence, in arrival order
(the segments the `Transcript` handler appends). -/
def finalsOf : List (String × Bool) → List String
  | [] => []
  | p :: r => if p.1 = "" then finalsOf r
              else if p.2 then p.1 :: finalsOf r
              else finalsOf r

/-- Modelled from the spec: "joined by single spaces" — the reference join
of a list of segments with exactly one space between consecutive ones,
used to compare the source's accumulation against the spec's wording. -/
def spaceJoin : List String → String
  | [] => ""
  | [t] => t
  | t :: u :: rest => t ++ " " ++ spaceJoin (u :: rest)

/-- Which provider calls the pipeline makes, with their inputs
(`sttStream.finish()`, `generateLLMResponse(finalText)`,
`generateTTS(ttsText)`). -/
inductive PipelineCall
  | sttFinish
  | llmCall (input : String)
  | ttsCall (input : String)
deriving DecidableEq, Repr

/-- The mutable per-connection `Session` of `session-handler.ts`:
the stream handle (if any), the `isCancelled` flag, whether each of the
two timers holds a live handle, and whether the WebSocket has been
closed (no handler in `session-handler.ts` ever closes it). -/
structure SessionState where
  sttStream : Option DeepgramStream
  isCancelled : Bool
  vadTimeout : Bool
  maxDurationTimeout : Bool
  wsClosed : Bool
deriving DecidableEq, Repr

/-- Outcomes of the awaited provider calls inside `finishRecording`:
the text `sttStream.finish()` resolves with, and the results of
`generateLLMResponse` and `generateTTS` (`Except.error m` is a rejected
promise whose `Error` has message `m`). -/
structure Oracle where
  finishText : String
  llm : Except String LLMResponse
  tts : Except String (String × String)

/-- Result of running an embedded handler: the session state afterwards,
the client-visible messages sent (in order), and the provider calls made
(in order). -/
structure RunResult where
  session : SessionState
  emitted : List ServerMessage
  calls : List PipelineCall

/-- `cleanupSession` (`session-handler.ts` lines 215-232): clear both
timers, close and null the stream, set `isCancelled`. -/
def cleanupSession (s : SessionState) : SessionState :=
  { s with vadTimeout := false, maxDurationTimeout := false,
           sttStream := none, isCancelled := true }

/-- The `cancel` case of `handleMessage` (`session-handler.ts` lines
123-128): set `isCancelled`, run `cleanupSession`, send an `idle`
status. -/
def handleCancel (s : SessionState) : SessionState × List ServerMessage :=
  (cleanupSession { s with isCancelled := true },
   [ServerMessage.statusMsg AppStatus.idle])

/-- The continuation of `finishRecording` after `await sttStream.finish()`
(`session-handler.ts` lines 166-208): close and null the stream; if the
trimmed text is empty, report `INVALID_INPUT` and go idle; otherwise send
the final transcript and run the LLM and TTS stages, with the shared
catch block classifying any rejection.  Note the source performs no
`isCancelled` check anywhere in this continuation. -/
def finishContinuation (s : SessionState) (o : Oracle) : RunResult :=
  let s1 := { s with sttStream := none }
  if jsTrim o.finishText = "" then
    { session := s1,
      emitted := [ServerMessage.errorMsg "No speech detected" ErrorCodes.INVALID_INPUT,
                  ServerMessage.statusMsg AppStatus.idle],
      calls := [] }
  else
    match o.llm with
    | Except.error m =>
        { session := s1,
          emitted := [ServerMessage.finalTranscript o.finishText,
                      ServerMessage.statusMsg AppStatus.processing_llm,
                      ServerMessage.errorMsg (classifyError m).2 (classifyError m).1,
                      ServerMessage.statusMsg AppStatus.idle],
          calls := [PipelineCall.llmCall o.finishText] }
    | Except.ok resp =>
        match o.tts with
        | Except.error m =>
            { session := s1,
              emitted := [ServerMessage.finalTranscript o.finishText,
                          ServerMessage.statusMsg AppStatus.processing_llm,
                          ServerMessage.llmResponse resp,
                          ServerMessage.statusMsg AppStatus.processing_tts,
                          ServerMessage.errorMsg (classifyError m).2 (classifyError m).1,
                          ServerMessage.statusMsg AppStatus.idle],
              calls := [PipelineCall.llmCall o.finishText,
                        PipelineCall.ttsCall (formatForTTS resp)] }
        | Except.ok res =>
            { session := s1,
              emitted := [ServerMessage.finalTranscript o.finishText,
                          ServerMessage.statusMsg AppStatus.processing_llm,
                          ServerMessage.llmResponse resp,
                          ServerMessage.statusMsg AppStatus.processing_tts,
                          ServerMessage.ttsAudio res.1 res.2,
                          ServerMessage.statusMsg AppStatus.ready_to_play],
              calls := [PipelineCall.llmCall o.finishText,
                        PipelineCall.ttsCall (formatForTTS resp)] }

/-- `finishRecording` (`session-handler.ts` lines 145-209) run without
interference: clear both timers; with no stream, just send `idle`;
otherwise send `processing_stt`, await `finish()` (outcome taken from the
oracle) and run the continuation. -/
def finishRecording (s : SessionState) (o : Oracle) : RunResult :=
  let s0 := { s with vadTimeout := false, maxDurationTimeout := false }
  match s0.sttStream with
  | none =>
      { session := s0, emitted := [ServerMessage.statusMsg AppStatus.idle],
        calls := [] }
  | some _ =>
      let cont := finishContinuation s0 o
      { session := cont.session,
        emitted := ServerMessage.statusMsg AppStatus.processing_stt :: cont.emitted,
        calls := PipelineCall.sttFinish :: cont.calls }

/-- The `maxDurationTimeout` callback (`session-handler.ts` lines
104-109): if not cancelled, send the `MAX_DURATION` error and run
`finishRecording`. -/
def maxDurationFire (s : SessionState) (o : Oracle) : RunResult :=
  if s.isCancelled then { session := s, emitted := [], calls := [] }
  else
    let r := finishRecording s o
    { session := r.session,
      emitted := ServerMessage.errorMsg "Maximum recording duration reached"
                   ErrorCodes.MAX_DURATION :: r.emitted,
      calls := r.calls }

/-- `finishRecording` interleaved with a client `cancel` message processed
while the handler is suspended at `await sttStream.finish()`: the prologue
(timer clearing, `processing_stt` status) runs, then the cancel handler
runs to completion on the shared session, then the continuation resumes
with the local `sttStream` reference — faithful to Node's per-message
handler scheduling, where an awaited handler does not block processing of
the next message. -/
def finishRecordingCancelRace (s : SessionState) (o : Oracle) : RunResult :=
  let s0 := { s with vadTimeout := false, maxDurationTimeout := false }
  match s0.sttStream with
  | none => finishRecording s o
  | some _ =>
      let c := handleCancel s0
      let cont := finishContinuation c.1 o
      { session := cont.session,
        emitted := ServerMessage.statusMsg AppStatus.processing_stt ::
                     (c.2 ++ cont.emitted),
        calls := PipelineCall.sttFinish :: cont.calls }

/-- The per-IP connection registry (`src/server/index.ts` line 15,
`const ipConnections = new Map<string, number>()`) as an association
list. -/
abbrev Registry : Type := List (String × Nat)

/-- `Map.get`: the count stored for `ip`, if any. -/
def regGet : Registry → String → Option Nat
  | [], _ => none
  | (k, v) :: r, ip => if k = ip then some v else regGet r ip

/-- `Map.set`: replace the entry for `ip`, or append one. -/
def regSet : Registry → String → Nat → Registry
  | [], ip, n => [(ip, n)]
  | (k, v) :: r, ip, n =>
      if k = ip then (ip, n) :: r else (k, v) :: regSet r ip n

/-- `Map.delete`: remove the entry for `ip`. -/
def regErase : Registry → String → Registry
  | [], _ => []
  | (k, v) :: r, ip => if k = ip then r else (k, v) :: regErase r ip

/-- `MAX_CONNECTIONS_PER_IP` (`src/server/index.ts` line 16). -/
def MAX_CONNECTIONS_PER_IP : Nat := 3

/-- Outcome of the admission gate: accept the connection, or close it with
a WebSocket close code and reason. -/
inductive AdmitResult
  | allow
  | deny (code : Nat) (reason : String)
deriving DecidableEq, Repr

/-- The admission gate of the `connection` handler (`src/server/index.ts`
lines 49-55): refuse with close code 1008 when the IP already holds the
maximum, otherwise increment its count. -/
def admitConnection (r : Registry) (ip : String) : AdmitResult × Registry :=
  if MAX_CONNECTIONS_PER_IP ≤ (regGet r ip).getD 0 then
    (AdmitResult.deny 1008 "Too many connections from this IP", r)
  else
    (AdmitResult.allow, regSet r ip ((regGet r ip).getD 0 + 1))

/-- The `close` handler of the `connection` handler (`src/server/index.ts`
lines 57-64): read the count (defaulting to 1), delete the entry at 1 or
below, otherwise decrement. -/
def releaseConnection (r : Registry) (ip : String) : Registry :=
  if (regGet r ip).getD 1 ≤ 1 then regErase r ip
  else regSet r ip ((regGet r ip).getD 1 - 1)

/-- Registry well-formedness: keys are distinct (it models a `Map`) and
every stored count is at least 1 (zero-count entries are removed). -/
def RegWF (r : Registry) : Prop :=
  (List.map Prod.fst r).Nodup ∧ ∀ p ∈ r, 1 ≤ p.2

/-! ### String helper lemmas -/

theorem strAppend_ne_empty_left (a b : String) (h : a ≠ "") : a ++ b ≠ "" := by
  intro hc
  apply h
  have hd := congrArg String.data hc
  rw [String.data_append] at hd
  have h0 : ("" : String).data = [] := rfl
  rw [h0] at hd
  exact String.ext (by simpa using (List.append_eq_nil.mp hd).1)

/-! ### DeepgramStream helper lemmas -/

theorem handleTranscript_pendingFinish (s : DeepgramStream) (t : String)
    (f : Bool) : (handleTranscript s t f).pendingFinish = s.pendingFinish := by
  unfold handleTranscript
  split_ifs <;> rfl

theorem handleTranscript_resolvedWith (s : DeepgramStream) (t : String)
    (f : Bool) : (handleTranscript s t f).resolvedWith = s.resolvedWith := by
  unfold handleTranscript
  split_ifs <;> rfl

theorem stepEvent_pending_or_resolved (s : DeepgramStream) (e : DGEvent)
    (h : s.pendingFinish = true ∨ s.resolvedWith.isSome = true) :
    (stepEvent s e).pendingFinish = true ∨
      ((stepEvent s e).resolvedWith).isSome = true := by
  cases e with
  | transcript t f =>
      rw [stepEvent, handleTranscript_pendingFinish, handleTranscript_resolvedWith]
      exact h
  | utteranceEnd =>
      rw [stepEvent]; unfold resolveIfPending; split_ifs <;> simp_all
  | closeEvt =>
      rw [stepEvent]; unfold resolveIfPending; split_ifs <;> simp_all
  | timeoutFire =>
      rw [stepEvent]; unfold resolveIfPending; split_ifs <;> simp_all
  | openEvt =>
      rw [stepEvent]; exact h

theorem stepEvent_resolved_isSome (s : DeepgramStream) (e : DGEvent)
    (h : (s.resolvedWith).isSome = true) :
    ((stepEvent s e).resolvedWith).isSome = true := by
  cases e with
  | transcript t f => rw [stepEvent, handleTranscript_resolvedWith]; exact h
  | utteranceEnd => rw [stepEvent]; unfold resolveIfPending; split_ifs <;> simp_all
  | closeEvt => rw [stepEvent]; unfold resolveIfPending; split_ifs <;> simp_all
  | timeoutFire => rw [stepEvent]; unfold resolveIfPending; split_ifs <;> simp_all
  | openEvt => rw [stepEvent]; exact h

theorem runEvents_resolved_isSome (es : List DGEvent) :
    ∀ s : DeepgramStream, (s.resolvedWith).isSome = true →
      ((runEvents s es).resolvedWith).isSome = true := by
  induction es with
  | nil => intro s h; exact h
  | cons e es ih =>
      intro s h
      exact ih (stepEvent s e) (stepEvent_resolved_isSome s e h)

theorem stepEvent_timeout_resolves (s : DeepgramStream)
    (h : s.pendingFinish = true ∨ s.resolvedWith.isSome = true) :
    ((stepEvent s DGEvent.timeoutFire).resolvedWith).isSome = true := by
  rw [stepEvent]; unfold resolveIfPending; split_ifs <;> simp_all

theorem runEvents_resolves_of_timeout (es : List DGEvent) :
    ∀ s : DeepgramStream,
      s.pendingFinish = true ∨ s.resolvedWith.isSome = true →
      DGEvent.timeoutFire ∈ es →
      ((runEvents s es).resolvedWith).isSome = true := by
  induction es with
  | nil => intro s _ hm; cases hm
  | cons e es ih =>
      intro s h hm
      rcases List.mem_cons.mp hm with he | hm2
      · rw [runEvents, ← he]
        exact runEvents_resolved_isSome es _ (stepEvent_timeout_resolves s h)
      · exact ih (stepEvent s e) (stepEvent_pending_or_resolved s e h) hm2

theorem stepEvent_frozen (s : DeepgramStream) (e : DGEvent)
    (hp : s.pendingFinish = false) :
    (stepEvent s e).pendingFinish = false ∧
      (stepEvent s e).resolvedWith = s.resolvedWith := by
  cases e with
  | transcript t f =>
      rw [stepEvent, handleTranscript_pendingFinish, handleTranscript_resolvedWith]
      exact ⟨hp, rfl⟩
  | utteranceEnd => rw [stepEvent]; unfold resolveIfPending; split_ifs <;> simp_all
  | closeEvt => rw [stepEvent]; unfold resolveIfPending; split_ifs <;> simp_all
  | timeoutFire => rw [stepEvent]; unfold resolveIfPending; split_ifs <;> simp_all
  | openEvt => rw [stepEvent]; exact ⟨hp, rfl⟩

theorem runEvents_frozen (es : List DGEvent) :
    ∀ s : DeepgramStream, s.pendingFinish = false →
      (runEvents s es).pendingFinish = false ∧
        (runEvents s es).resolvedWith = s.resolvedWith := by
  induction es with
  | nil => intro s hp; exact ⟨hp, rfl⟩
  | cons e es ih =>
      intro s hp
      obtain ⟨h1, h2⟩ := stepEvent_frozen s e hp
      obtain ⟨h3, h4⟩ := ih (stepEvent s e) h1
      exact ⟨h3, h4.trans h2⟩

theorem runEvents_transcript_foldl (segs : List (String × Bool)) :
    ∀ s : DeepgramStream,
      (runEvents s (segs.map fun p => DGEvent.transcript p.1 p.2)).fullTranscript
        = List.foldl joinSeg s.fullTranscript (finalsOf segs) := by
  induction segs with
  | nil => intro s; rfl
  | cons p r ih =>
      intro s
      obtain ⟨t, f⟩ := p
      by_cases ht : t = ""
      · simp only [List.map_cons, runEvents, stepEvent, handleTranscript, ht,
          if_true, finalsOf, ite_true]
        exact ih s
      · cases f with
        | true =>
            simp only [List.map_cons, runEvents, stepEvent, handleTranscript, ht,
              if_false, if_true, finalsOf, ite_false, ite_true]
            rw [ih, List.foldl_cons]
        | false =>
            simp only [List.map_cons, runEvents, stepEvent, handleTranscript, ht,
              if_false, finalsOf, ite_false]
            exact ih s

theorem foldl_joinSeg_of_ne (l : List String) :
    ∀ a : String, a ≠ "" → List.foldl joinSeg a l = spaceJoin (a :: l) := by
  induction l with
  | nil => intro a _; rfl
  | cons t r ih =>
      intro a ha
      have hj : joinSeg a t = a ++ " " ++ t := by
        unfold joinSeg; rw [if_neg ha]
      have hne : a ++ " " ++ t ≠ "" :=
        strAppend_ne_empty_left _ _ (strAppend_ne_empty_left _ _ ha)
      rw [List.foldl_cons, hj, ih _ hne]
      cases r with
      | nil => rfl
      | cons u r2 =>
          show (a ++ " " ++ t) ++ " " ++ spaceJoin (u :: r2)
            = a ++ " " ++ (t ++ " " ++ spaceJoin (u :: r2))
          simp only [String.append_assoc]

theorem foldl_joinSeg_empty (l : List String) (h : ∀ x ∈ l, x ≠ "") :
    List.foldl joinSeg "" l = spaceJoin l := by
  cases l with
  | nil => rfl
  | cons t r =>
      have ht : t ≠ "" := h t (List.mem_cons_self t r)
      have hj : joinSeg "" t = t := by
        unfold joinSeg
        rw [if_pos rfl, String.append_empty, String.empty_append]
      rw [List.foldl_cons, hj]
      exact foldl_joinSeg_of_ne r t ht

theorem finalsOf_ne_empty (segs : List (String × Bool)) :
    ∀ x ∈ finalsOf segs, x ≠ "" := by
  induction segs with
  | nil => intro x hx; cases hx
  | cons p r ih =>
      intro x hx
      unfold finalsOf at hx
      split_ifs at hx with h1 h2
      · exact ih x hx
      · rcases List.mem_cons.mp hx with he | hm
        · rw [he]; exact h1
        · exact ih x hm
      · exact ih x hx

/-! ### Registry helper lemmas -/

theorem regGet_regSet_self (r : Registry) (ip : String) (n : Nat) :
    regGet (regSet r ip n) ip = some n := by
  induction r with
  | nil => simp [regSet, regGet]
  | cons p r ih =>
      obtain ⟨k, v⟩ := p
      by_cases hk : k = ip
      · simp only [regSet]; rw [if_pos hk]
        simp [regGet]
      · simp only [regSet]; rw [if_neg hk]
        simp only [regGet]; rw [if_neg hk]
        exact ih

theorem mem_regSet (r : Registry) (ip : String) (n : Nat) (p : String × Nat)
    (h : p ∈ regSet r ip n) : p ∈ r ∨ p = (ip, n) := by
  induction r with
  | nil =>
      simp only [regSet] at h
      right
      exact List.mem_singleton.mp h
  | cons q r ih =>
      obtain ⟨k, v⟩ := q
      by_cases hk : k = ip
      · simp only [regSet] at h; rw [if_pos hk] at h
        rcases List.mem_cons.mp h with he | hm
        · right; exact he
        · left; exact List.mem_cons_of_mem _ hm
      · simp only [regSet] at h; rw [if_neg hk] at h
        rcases List.mem_cons.mp h with he | hm
        · left; rw [he]; exact List.mem_cons_self _ _
        · rcases ih hm with h1 | h2
          · left; exact List.mem_cons_of_mem _ h1
          · right; exact h2

theorem keys_regSet_subset (r : Registry) (ip : String) (n : Nat) (x : String)
    (h : x ∈ List.map Prod.fst (regSet r ip n)) :
    x = ip ∨ x ∈ List.map Prod.fst r := by
  rcases List.mem_map.mp h with ⟨p, hp, hx⟩
  rcases mem_regSet r ip n p hp with h1 | h2
  · right; rw [← hx]; exact List.mem_map_of_mem _ h1
  · left; rw [← hx, h2]

theorem nodup_keys_regSet (r : Registry) (ip : String) (n : Nat)
    (h : (List.map Prod.fst r).Nodup) :
    (List.map Prod.fst (regSet r ip n)).Nodup := by
  induction r with
  | nil => simp [regSet]
  | cons q r ih =>
      obtain ⟨k, v⟩ := q
      rw [List.map_cons, List.nodup_cons] at h
      by_cases hk : k = ip
      · simp only [regSet]; rw [if_pos hk]
        rw [List.map_cons, List.nodup_cons]
        exact ⟨hk ▸ h.1, h.2⟩
      · simp only [regSet]; rw [if_neg hk]
        rw [List.map_cons, List.nodup_cons]
        refine ⟨?_, ih h.2⟩
        intro hmem
        rcases keys_regSet_subset r ip n k hmem with h1 | h2
        · exact hk h1
        · exact h.1 h2

theorem mem_regErase (r : Registry) (ip : String) (p : String × Nat)
    (h : p ∈ regErase r ip) : p ∈ r := by
  induction r with
  | nil => cases h
  | cons q r ih =>
      obtain ⟨k, v⟩ := q
      by_cases hk : k = ip
      · simp only [regErase] at h; rw [if_pos hk] at h
        exact List.mem_cons_of_mem _ h
      · simp only [regErase] at h; rw [if_neg hk] at h
        rcases List.mem_cons.mp h with he | hm
        · rw [he]; exact List.mem_cons_self _ _
        · exact List.mem_cons_of_mem _ (ih hm)

theorem keys_regErase_sublist (r : Registry) (ip : String) :
    List.Sublist (List.map Prod.fst (regErase r ip)) (List.map Prod.fst r) := by
  induction r with
  | nil => simp [regErase]
  | cons q r ih =>
      obtain ⟨k, v⟩ := q
      by_cases hk : k = ip
      · simp only [regErase]; rw [if_pos hk]
        rw [List.map_cons]
        exact List.Sublist.cons _ (List.Sublist.refl _)
      · simp only [regErase]; rw [if_neg hk]
        rw [List.map_cons, List.map_cons]
        exact List.Sublist.cons₂ _ ih

theorem regGet_eq_none_iff (r : Registry) (ip : String) :
    regGet r ip = none ↔ ip ∉ List.map Prod.fst r := by
  induction r with
  | nil => simp [regGet]
  | cons q r ih =>
      obtain ⟨k, v⟩ := q
      by_cases hk : k = ip
      · simp only [regGet]; rw [if_pos hk]
        simp [hk]
      · simp only [regGet]; rw [if_neg hk]
        rw [List.map_cons]
        rw [ih]
        constructor
        · intro hn hmem
          rcases List.mem_cons.mp hmem with he | hm
          · exact hk he.symm
          · exact hn hm
        · intro hn hm
          exact hn (List.mem_cons_of_mem _ hm)

theorem regGet_regErase_self (r : Registry) (ip : String)
    (h : (List.map Prod.fst r).Nodup) :
    regGet (regErase r ip) ip = none := by
  induction r with
  | nil => rfl
  | cons q r ih =>
      obtain ⟨k, v⟩ := q
      rw [List.map_cons, List.nodup_cons] at h
      by_cases hk : k = ip
      · simp only [regErase]; rw [if_pos hk]
        exact (regGet_eq_none_iff r ip).mpr (hk ▸ h.1)
      · simp only [regErase]; rw [if_neg hk]
        simp only [regGet]; rw [if_neg hk]
        exact ih h.2

theorem regErase_of_none (r : Registry) (ip : String)
    (h : regGet r ip = none) : regErase r ip = r := by
  induction r with
  | nil => rfl
  | cons q r ih =>
      obtain ⟨k, v⟩ := q
      by_cases hk : k = ip
      · simp only [regGet] at h; rw [if_pos hk] at h; cases h
      · simp only [regGet] at h; rw [if_neg hk] at h
        simp only [regErase]; rw [if_neg hk, ih h]

theorem regGet_mem (r : Registry) (ip : String) (n : Nat)
    (h : regGet r ip = some n) : (ip, n) ∈ r := by
  induction r with
  | nil => cases h
  | cons q r ih =>
      obtain ⟨k, v⟩ := q
      by_cases hk : k = ip
      · simp only [regGet] at h; rw [if_pos hk] at h
        injection h with h2
        rw [← hk, ← h2]
        exact List.mem_cons_self _ _
      · simp only [regGet] at h; rw [if_neg hk] at h
        exact List.mem_cons_of_mem _ (ih h)

theorem regWF_regSet (r : Registry) (ip : String) (n : Nat) (h : RegWF r)
    (hn : 1 ≤ n) : RegWF (regSet r ip n) := by
  refine ⟨nodup_keys_regSet r ip n h.1, ?_⟩
  intro p hp
  rcases mem_regSet r ip n p hp with h1 | h2
  · exact h.2 p h1
  · rw [h2]; exact hn

theorem regWF_regErase (r : Registry) (ip : String) (h : RegWF r) :
    RegWF (regErase r ip) :=
  ⟨List.Nodup.sublist (keys_regErase_sublist r ip) h.1,
   fun p hp => h.2 p (mem_regErase r ip p hp)⟩

/-! ### Claim theorems -/

/-- Claim C3: for every transcription stream, `finish()` always resolves
and never hangs indefinitely: once `finish()` has run, processing any
event sequence in which the scheduled 2-second fallback timer fires leaves
the promise resolved; while a `finish()` is pending, the provider's
utterance-end signal resolves it with the accumulated transcript, and an
unexpected connection close resolves it with the partial accumulation
(the model has no rejection path: `resolvedWith` is the only outcome). -/
theorem finish_always_resolves (s : DeepgramStream) :
    (∀ es : List DGEvent, DGEvent.timeoutFire ∈ es →
      ((runEvents (finishStep s) es).resolvedWith).isSome = true) ∧
    (∀ s2 : DeepgramStream, s2.pendingFinish = true →
      (stepEvent s2 DGEvent.utteranceEnd).resolvedWith = some s2.fullTranscript) ∧
    (∀ s2 : DeepgramStream, s2.pendingFinish = true →
      (stepEvent s2 DGEvent.closeEvt).resolvedWith = some s2.fullTranscript) := by
  refine ⟨?_, ?_, ?_⟩
  · intro es hm
    apply runEvents_resolves_of_timeout es (finishStep s) ?_ hm
    unfold finishStep
    split_ifs <;> simp
  · intro s2 hp
    rw [stepEvent]; unfold resolveIfPending; rw [if_pos hp]
  · intro s2 hp
    rw [stepEvent]; unfold resolveIfPending
    simp only [hp, if_true]

/-- Witness for C3: a fresh stream whose `finish()` is pending resolves
when the fallback timer fires, and a pending stream with accumulation
"hi" resolves with "hi" on utterance-end and on close. -/
theorem finish_always_resolves_witness :
    ((runEvents (finishStep initialStream) [DGEvent.timeoutFire]).resolvedWith).isSome
        = true ∧
    (stepEvent (DeepgramStream.mk "hi" true none true)
        DGEvent.utteranceEnd).resolvedWith = some "hi" ∧
    (stepEvent (DeepgramStream.mk "hi" true none true)
        DGEvent.closeEvt).resolvedWith = some "hi" :=
  ⟨(finish_always_resolves initialStream).1 [DGEvent.timeoutFire] (by decide),
   (finish_always_resolves initialStream).2.1 _ rfl,
   (finish_always_resolves initialStream).2.2 _ rfl⟩

/-- Claim C6: the accumulated transcript is exactly the provider's
non-empty final segments joined by single spaces in arrival order
(for finals "hello" then "world" it is "hello world"); partial segments
never change the accumulation, and every event only ever appends to the
already-accumulated text. -/
theorem transcript_accumulation_space_joined (segs : List (String × Bool)) :
    (streamOfSegs segs).fullTranscript = spaceJoin (finalsOf segs) ∧
    (streamOfSegs [("hello", true), ("world", true)]).fullTranscript
        = "hello world" ∧
    (∀ (s : DeepgramStream) (t : String),
      (stepEvent s (DGEvent.transcript t false)).fullTranscript
        = s.fullTranscript) ∧
    (∀ (s : DeepgramStream) (e : DGEvent),
      ∃ rest, (stepEvent s e).fullTranscript = s.fullTranscript ++ rest) := by
  refine ⟨?_, by decide, ?_, ?_⟩
  · unfold streamOfSegs
    rw [runEvents_transcript_foldl segs initialStream]
    exact foldl_joinSeg_empty (finalsOf segs) (finalsOf_ne_empty segs)
  · intro s t
    rw [stepEvent]; unfold handleTranscript
    split_ifs with h1 h2
    · rfl
    · exact h2.elim
    · rfl
  · intro s e
    cases e with
    | transcript t f =>
        rw [stepEvent]; unfold handleTranscript
        split_ifs
        · exact ⟨"", (String.append_empty _).symm⟩
        · exact ⟨(if s.fullTranscript = "" then "" else " ") ++ t, by
            show joinSeg s.fullTranscript t = _
            unfold joinSeg
            rw [String.append_assoc]⟩
        · exact ⟨"", (String.append_empty _).symm⟩
    | utteranceEnd =>
        refine ⟨"", ?_⟩
        rw [stepEvent]; unfold resolveIfPending
        split_ifs <;> exact (String.append_empty _).symm
    | closeEvt =>
        refine ⟨"", ?_⟩
        rw [stepEvent]; unfold resolveIfPending
        split_ifs <;> exact (String.append_empty _).symm
    | timeoutFire =>
        refine ⟨"", ?_⟩
        rw [stepEvent]; unfold resolveIfPending
        split_ifs <;> exact (String.append_empty _).symm
    | openEvt => exact ⟨"", (String.append_empty _).symm⟩

/-- Claim C10: if the accumulated transcript is non-empty when `finish()`
is called, it resolves immediately (synchronously, before any further
event) with that text, and no later event — in particular no later final
segment — changes the resolved value. -/
theorem finish_immediate_when_accumulated_nonempty (s : DeepgramStream)
    (h1 : s.fullTranscript ≠ "") (h2 : s.pendingFinish = false) :
    (finishStep s).resolvedWith = some s.fullTranscript ∧
    ∀ es : List DGEvent,
      (runEvents (finishStep s) es).resolvedWith = some s.fullTranscript := by
  have hres : (finishStep s).resolvedWith = some s.fullTranscript := by
    unfold finishStep
    rw [if_pos h1]
  have hpend : (finishStep s).pendingFinish = false := by
    unfold finishStep
    rw [if_pos h1]
    exact h2
  refine ⟨hres, fun es => ?_⟩
  rw [(runEvents_frozen es (finishStep s) hpend).2, hres]

/-- Witness for C10: a stream that accumulated "hello" resolves `finish()`
with "hello" even when the provider later delivers the final segment
"world". -/
theorem finish_immediate_witness :
    (runEvents (finishStep (DeepgramStream.mk "hello" false none true))
      [DGEvent.transcript "world" true]).resolvedWith = some "hello" :=
  (finish_immediate_when_accumulated_nonempty _ (by decide) rfl).2 _

/-- Claim C1 (code bug): the claim says that once `cancelled` is set no
pipeline stage produces client-visible output, a stage in progress
checking the flag after each awaited provider call.  The source's
`finishRecording` performs no `isCancelled` check after its awaits, so
when a `cancel` message is processed while the handler is suspended at
`await sttStream.finish()`, the session ends with `isCancelled = true`
and yet the full pipeline output — `final_transcript`, `llm_response`,
`tts_audio` and the status updates — is still emitted after the cancel's
own `idle` status (everything following the second list element below
is client-visible output produced after cancellation). -/
theorem cancel_race_emits_output_after_cancel :
    (finishRecordingCancelRace
        (SessionState.mk (some initialStream) false true true false)
        (Oracle.mk "hello" (Except.ok (LLMResponse.mk "Hi." [] "n"))
          (Except.ok ("QUJD", "audio/mpeg")))).session.isCancelled = true ∧
    (finishRecordingCancelRace
        (SessionState.mk (some initialStream) false true true false)
        (Oracle.mk "hello" (Except.ok (LLMResponse.mk "Hi." [] "n"))
          (Except.ok ("QUJD", "audio/mpeg")))).emitted =
      [ServerMessage.statusMsg AppStatus.processing_stt,
       ServerMessage.statusMsg AppStatus.idle,
       ServerMessage.finalTranscript "hello",
       ServerMessage.statusMsg AppStatus.processing_llm,
       ServerMessage.llmResponse (LLMResponse.mk "Hi." [] "n"),
       ServerMessage.statusMsg AppStatus.processing_tts,
       ServerMessage.ttsAudio "QUJD" "audio/mpeg",
       ServerMessage.statusMsg AppStatus.ready_to_play] := by
  decide

/-- Claim C2: when the finalized transcript is empty or whitespace-only,
the session emits the `INVALID_INPUT` error and an `idle` status, releases
the stream (back to Idle), and makes no LLM or TTS call. -/
theorem empty_transcript_short_circuits (s : SessionState) (o : Oracle)
    (d : DeepgramStream) (hs : s.sttStream = some d)
    (ht : jsTrim o.finishText = "") :
    (finishRecording s o).emitted =
      [ServerMessage.statusMsg AppStatus.processing_stt,
       ServerMessage.errorMsg "No speech detected" ErrorCodes.INVALID_INPUT,
       ServerMessage.statusMsg AppStatus.idle] ∧
    (finishRecording s o).calls = [PipelineCall.sttFinish] ∧
    (finishRecording s o).session.sttStream = none := by
  refine ⟨?_, ?_, ?_⟩ <;>
    simp [finishRecording, finishContinuation, hs, ht]

/-- Witness for C2: a session holding a stream whose `finish()` resolves
with whitespace-only text emits exactly the invalid-input sequence and
calls no downstream stage. -/
theorem empty_transcript_short_circuits_witness :
    (finishRecording (SessionState.mk (some initialStream) false true true false)
        (Oracle.mk "   " (Except.error "e") (Except.error "e"))).emitted =
      [ServerMessage.statusMsg AppStatus.processing_stt,
       ServerMessage.errorMsg "No speech detected" ErrorCodes.INVALID_INPUT,
       ServerMessage.statusMsg AppStatus.idle] ∧
    (finishRecording (SessionState.mk (some initialStream) false true true false)
        (Oracle.mk "   " (Except.error "e") (Except.error "e"))).calls
      = [PipelineCall.sttFinish] ∧
    (finishRecording (SessionState.mk (some initialStream) false true true false)
        (Oracle.mk "   " (Except.error "e") (Except.error "e"))).session.sttStream
      = none :=
  empty_transcript_short_circuits _ _ initialStream rfl (by decide)

/-- Claim C5 (amended): issuing `cancel` twice in a row is idempotent on
the session state — the second issuance leaves exactly the state of the
first: stream released, both timers cleared, `isCancelled` set — and
emits no error; but each issuance emits one `idle` status, so two
issuances emit two `idle` statuses (one more than a single issuance). -/
theorem cancel_idempotent_state_duplicate_status (s : SessionState) :
    (handleCancel (handleCancel s).1).1 = (handleCancel s).1 ∧
    (handleCancel s).1.sttStream = none ∧
    (handleCancel s).1.vadTimeout = false ∧
    (handleCancel s).1.maxDurationTimeout = false ∧
    (handleCancel s).1.isCancelled = true ∧
    (handleCancel s).2 = [ServerMessage.statusMsg AppStatus.idle] ∧
    (handleCancel (handleCancel s).1).2
      = [ServerMessage.statusMsg AppStatus.idle] :=
  ⟨rfl, rfl, rfl, rfl, rfl, rfl, rfl⟩

/-- Counterexample for C5 as stated: from a listening session, issuing
`cancel` twice emits the `idle` status twice — a duplicate status
emission compared to issuing it once. -/
theorem cancel_twice_duplicate_status_counterexample :
    (handleCancel (SessionState.mk (some initialStream) false true true false)).2
        ++ (handleCancel (handleCancel
              (SessionState.mk (some initialStream) false true true false)).1).2
      = [ServerMessage.statusMsg AppStatus.idle,
         ServerMessage.statusMsg AppStatus.idle] ∧
    [ServerMessage.statusMsg AppStatus.idle,
       ServerMessage.statusMsg AppStatus.idle]
      ≠ (handleCancel (SessionState.mk (some initialStream) false true true false)).2 := by
  decide

/-- Claim C7: when the duration-cap timer fires on a non-cancelled
session holding a stream, the client receives the `MAX_DURATION` error
notice strictly before the `final_transcript`, and the captured recording
is still finalized (the `finish()` call is made and its text is sent). -/
theorem max_duration_notice_before_final (s : SessionState) (o : Oracle)
    (d : DeepgramStream) (hc : s.isCancelled = false)
    (hs : s.sttStream = some d) (ht : jsTrim o.finishText ≠ "") :
    (∃ rest, (maxDurationFire s o).emitted =
      ServerMessage.errorMsg "Maximum recording duration reached"
          ErrorCodes.MAX_DURATION ::
        ServerMessage.statusMsg AppStatus.processing_stt ::
        ServerMessage.finalTranscript o.finishText :: rest) ∧
    PipelineCall.sttFinish ∈ (maxDurationFire s o).calls := by
  constructor
  · rcases hll : o.llm with m | resp
    · refine ⟨[ServerMessage.statusMsg AppStatus.processing_llm,
        ServerMessage.errorMsg (classifyError m).2 (classifyError m).1,
        ServerMessage.statusMsg AppStatus.idle], ?_⟩
      simp [maxDurationFire, finishRecording, finishContinuation, hc, hs, ht, hll]
    · rcases htt : o.tts with m | res
      · refine ⟨[ServerMessage.statusMsg AppStatus.processing_llm,
          ServerMessage.llmResponse resp,
          ServerMessage.statusMsg AppStatus.processing_tts,
          ServerMessage.errorMsg (classifyError m).2 (classifyError m).1,
          ServerMessage.statusMsg AppStatus.idle], ?_⟩
        simp [maxDurationFire, finishRecording, finishContinuation, hc, hs, ht,
          hll, htt]
      · refine ⟨[ServerMessage.statusMsg AppStatus.processing_llm,
          ServerMessage.llmResponse resp,
          ServerMessage.statusMsg AppStatus.processing_tts,
          ServerMessage.ttsAudio res.1 res.2,
          ServerMessage.statusMsg AppStatus.ready_to_play], ?_⟩
        simp [maxDurationFire, finishRecording, finishContinuation, hc, hs, ht,
          hll, htt]
  · simp [maxDurationFire, finishRecording, hc, hs]

/-- Witness for C7: a concrete non-cancelled listening session forced to
finalize by the duration cap emits `MAX_DURATION`, then `processing_stt`,
then the final transcript, and the finalize call was made. -/
theorem max_duration_notice_before_final_witness :
    (∃ rest, (maxDurationFire
        (SessionState.mk (some initialStream) false true true false)
        (Oracle.mk "hello" (Except.ok (LLMResponse.mk "Hi." [] "n"))
          (Except.ok ("QUJD", "audio/mpeg")))).emitted =
      ServerMessage.errorMsg "Maximum recording duration reached"
          ErrorCodes.MAX_DURATION ::
        ServerMessage.statusMsg AppStatus.processing_stt ::
        ServerMessage.finalTranscript "hello" :: rest) ∧
    PipelineCall.sttFinish ∈ (maxDurationFire
        (SessionState.mk (some initialStream) false true true false)
        (Oracle.mk "hello" (Except.ok (LLMResponse.mk "Hi." [] "n"))
          (Except.ok ("QUJD", "audio/mpeg")))).calls :=
  max_duration_notice_before_final _ _ initialStream rfl rfl (by decide)

/-- Claim C8 (amended): a rejection in the LLM or TTS stage is caught,
classified by substring matching on the error message via
`classifyError` (`STT`/`Deepgram`, then `LLM`/`OpenAI`, then `TTS`, else
`CONNECTION_ERROR`), reported with the generic user-facing message, and
the session returns to idle with the connection left open. -/
theorem provider_error_classified_by_substring (s : SessionState)
    (o : Oracle) (d : DeepgramStream) (m : String)
    (hs : s.sttStream = some d) (ht : jsTrim o.finishText ≠ "") :
    (o.llm = Except.error m →
      (finishRecording s o).emitted =
        [ServerMessage.statusMsg AppStatus.processing_stt,
         ServerMessage.finalTranscript o.finishText,
         ServerMessage.statusMsg AppStatus.processing_llm,
         ServerMessage.errorMsg (classifyError m).2 (classifyError m).1,
         ServerMessage.statusMsg AppStatus.idle] ∧
      (finishRecording s o).session.wsClosed = s.wsClosed) ∧
    (∀ resp, o.llm = Except.ok resp → o.tts = Except.error m →
      (finishRecording s o).emitted =
        [ServerMessage.statusMsg AppStatus.processing_stt,
         ServerMessage.finalTranscript o.finishText,
         ServerMessage.statusMsg AppStatus.processing_llm,
         ServerMessage.llmResponse resp,
         ServerMessage.statusMsg AppStatus.processing_tts,
         ServerMessage.errorMsg (classifyError m).2 (classifyError m).1,
         ServerMessage.statusMsg AppStatus.idle] ∧
      (finishRecording s o).session.wsClosed = s.wsClosed) := by
  constructor
  · intro hll
    constructor <;>
      simp [finishRecording, finishContinuation, hs, ht, hll]
  · intro resp hll htt
    constructor <;>
      simp [finishRecording, finishContinuation, hs, ht, hll, htt]

/-- Witness for C8 (amended): a TTS-stage rejection with message
"TTS service unavailable" is reported as `TTS_ERROR` with the generic
message, followed by an idle status, and the connection stays open. -/
theorem provider_error_classified_witness :
    (finishRecording (SessionState.mk (some initialStream) false true true false)
        (Oracle.mk "hello" (Except.ok (LLMResponse.mk "Hi." [] "n"))
          (Except.error "TTS service unavailable"))).emitted =
      [ServerMessage.statusMsg AppStatus.processing_stt,
       ServerMessage.finalTranscript "hello",
       ServerMessage.statusMsg AppStatus.processing_llm,
       ServerMessage.llmResponse (LLMResponse.mk "Hi." [] "n"),
       ServerMessage.statusMsg AppStatus.processing_tts,
       ServerMessage.errorMsg
         (classifyError "TTS service unavailable").2
         (classifyError "TTS service unavailable").1,
       ServerMessage.statusMsg AppStatus.idle] ∧
    (finishRecording (SessionState.mk (some initialStream) false true true false)
        (Oracle.mk "hello" (Except.ok (LLMResponse.mk "Hi." [] "n"))
          (Except.error "TTS service unavailable"))).session.wsClosed = false :=
  ((provider_error_classified_by_substring _ _ initialStream
      "TTS service unavailable" rfl (by decide)).2
    (LLMResponse.mk "Hi." [] "n") rfl rfl)

/-- Counterexample for C8 as stated: a failure raised during the
speech-synthesis stage (the pipeline made a `ttsCall`, and the LLM stage
had already succeeded) whose message mentions "OpenAI" is reported as
`LLM_ERROR` — classification follows the message text, not the stage
whose call failed. -/
theorem tts_stage_error_misclassified_counterexample :
    (finishRecording (SessionState.mk (some initialStream) false true true false)
        (Oracle.mk "hello" (Except.ok (LLMResponse.mk "Hi." [] "n"))
          (Except.error "OpenAI API error"))).calls =
      [PipelineCall.sttFinish, PipelineCall.llmCall "hello",
       PipelineCall.ttsCall "Hi."] ∧
    (finishRecording (SessionState.mk (some initialStream) false true true false)
        (Oracle.mk "hello" (Except.ok (LLMResponse.mk "Hi." [] "n"))
          (Except.error "OpenAI API error"))).emitted =
      [ServerMessage.statusMsg AppStatus.processing_stt,
       ServerMessage.finalTranscript "hello",
       ServerMessage.statusMsg AppStatus.processing_llm,
       ServerMessage.llmResponse (LLMResponse.mk "Hi." [] "n"),
       ServerMessage.statusMsg AppStatus.processing_tts,
       ServerMessage.errorMsg "AI response generation failed"
         ErrorCodes.LLM_ERROR,
       ServerMessage.statusMsg AppStatus.idle] := by
  decide

/-- Claim C9: only the summary of a structured response reaches speech
synthesis — `formatForTTS` returns exactly the summary, and the pipeline's
TTS call receives exactly the response's summary, never the bullets or
the next action. -/
theorem tts_input_is_summary (s : SessionState) (o : Oracle)
    (d : DeepgramStream) (resp : LLMResponse) (hs : s.sttStream = some d)
    (ht : jsTrim o.finishText ≠ "") (hl : o.llm = Except.ok resp) :
    formatForTTS resp = resp.summary ∧
    (finishRecording s o).calls =
      [PipelineCall.sttFinish, PipelineCall.llmCall o.finishText,
       PipelineCall.ttsCall resp.summary] := by
  refine ⟨rfl, ?_⟩
  rcases htt : o.tts with m | res <;>
    simp [finishRecording, finishContinuation, hs, ht, hl, htt, formatForTTS]

/-- Witness for C9: with a structured response whose summary is "Hi.",
bullets ["a", "b"] and next action "call back", the TTS call receives
exactly "Hi.". -/
theorem tts_input_is_summary_witness :
    formatForTTS (LLMResponse.mk "Hi." ["a", "b"] "call back") = "Hi." ∧
    (finishRecording (SessionState.mk (some initialStream) false true true false)
        (Oracle.mk "hello"
          (Except.ok (LLMResponse.mk "Hi." ["a", "b"] "call back"))
          (Except.ok ("QUJD", "audio/mpeg")))).calls =
      [PipelineCall.sttFinish, PipelineCall.llmCall "hello",
       PipelineCall.ttsCall "Hi."] :=
  tts_input_is_summary _ _ initialStream
    (LLMResponse.mk "Hi." ["a", "b"] "call back") rfl (by decide) rfl

/-- Claim C4: the per-IP registry keeps its invariants under the
admission gate and the close handler: well-formedness (distinct keys, no
zero or negative counts — entries at 0 are removed) is preserved; a close
decrements the IP's count by exactly one, removing the entry at count 1;
a close for an absent IP leaves the registry unchanged (so a racing
duplicate release cannot drive a count negative); a fourth concurrent
connection from an IP holding 3 sessions is refused with the distinct
close reason; and after releasing one of the 3 a new admission is
allowed. -/
theorem registry_invariants (r : Registry) (ip : String) (h : RegWF r) :
    RegWF (admitConnection r ip).2 ∧
    RegWF (releaseConnection r ip) ∧
    (∀ n, regGet r ip = some n →
      (n = 1 → regGet (releaseConnection r ip) ip = none) ∧
      (2 ≤ n → regGet (releaseConnection r ip) ip = some (n - 1))) ∧
    (regGet r ip = none → releaseConnection r ip = r) ∧
    (regGet r ip = some 3 →
      admitConnection r ip
        = (AdmitResult.deny 1008 "Too many connections from this IP", r)) ∧
    (regGet r ip = some 3 →
      (admitConnection (releaseConnection r ip) ip).1 = AdmitResult.allow) := by
  refine ⟨?_, ?_, ?_, ?_, ?_, ?_⟩
  · unfold admitConnection
    split_ifs
    · exact h
    · exact regWF_regSet r ip _ h (Nat.succ_le_succ (Nat.zero_le _))
  · unfold releaseConnection
    split_ifs with h1
    · exact regWF_regErase r ip h
    · exact regWF_regSet r ip _ h (by omega)
  · intro n hn
    constructor
    · intro h1
      subst h1
      unfold releaseConnection
      rw [hn]
      simp only [Option.getD_some]
      rw [if_pos (Nat.le_refl 1)]
      exact regGet_regErase_self r ip h.1
    · intro h2
      unfold releaseConnection
      rw [hn]
      simp only [Option.getD_some]
      rw [if_neg (by omega)]
      exact regGet_regSet_self r ip (n - 1)
  · intro hn
    unfold releaseConnection
    rw [hn]
    simp only [Option.getD_none]
    rw [if_pos (Nat.le_refl 1)]
    exact regErase_of_none r ip hn
  · intro hn
    unfold admitConnection
    rw [hn]
    simp only [Option.getD_some]
    rw [if_pos (by decide)]
  · intro hn
    unfold releaseConnection
    rw [hn]
    simp only [Option.getD_some]
    rw [if_neg (by omega)]
    unfold admitConnection
    rw [regGet_regSet_self r ip (3 - 1)]
    simp only [Option.getD_some]
    rw [if_neg (by decide)]

/-- Witness for C4: with the registry holding 3 connections for one IP,
a fourth attempt is denied with close code 1008 and the distinct reason,
and after one release a new admission is allowed. -/
theorem registry_invariants_witness :
    RegWF [("1.2.3.4", 3)] ∧
    admitConnection [("1.2.3.4", 3)] "1.2.3.4"
      = (AdmitResult.deny 1008 "Too many connections from this IP",
         [("1.2.3.4", 3)]) ∧
    (admitConnection (releaseConnection [("1.2.3.4", 3)] "1.2.3.4")
        "1.2.3.4").1 = AdmitResult.allow := by
  have hwf : RegWF [("1.2.3.4", 3)] := by
    unfold RegWF
    constructor
    · exact List.nodup_singleton _
    · intro p hp
      rw [List.mem_singleton.mp hp]
      decide
  refine ⟨hwf, ?_, ?_⟩
  · exact (registry_invariants [("1.2.3.4", 3)] "1.2.3.4" hwf).2.2.2.2.1 rfl
  · exact (registry_invariants [("1.2.3.4", 3)] "1.2.3.4" hwf).2.2.2.2.2 rfl
